import Mathlib

/-!
Verification of the validation-and-derivation pipeline of
`scripts/create-new-sub-files.py` (Terragrunt subscription scaffolder).

Python strings are modelled as `List Char` (`PyStr`); every string primitive the
script uses (`str.lower`, `str.title`, `str.strip`, `str.replace`, `dict.get`,
the `re` searches it performs and `json.dumps(..., indent=4)`) is embedded
explicitly below, restricted to the exact patterns the script applies them to.
Failure is modelled with `Except PyError`: a raised `SubscriptionError` carrying
one of the script's `ErrorMessages` members becomes `.error (.sub m)`, and an
uncaught Python runtime error (IndexError / AttributeError / TypeError) becomes
the corresponding bare constructor, so typed validation failures stay
distinguishable from crashes.
-/

/-- A Python `str`, modelled as its list of characters. -/
abbrev PyStr := List Char

/-- Shorthand turning a Lean string literal into the `PyStr` model. -/
def pys (s : String) : PyStr := s.toList

/-- ASCII `A`-`Z`. -/
def isAsciiUpper (c : Char) : Bool := 65 ≤ c.toNat && c.toNat ≤ 90

/-- ASCII `a`-`z`. -/
def isAsciiLower (c : Char) : Bool := 97 ≤ c.toNat && c.toNat ≤ 122

/-- ASCII `0`-`9`, the characters Python's `\d` matches on this script's ASCII inputs. -/
def isDigitCh (c : Char) : Bool := 48 ≤ c.toNat && c.toNat ≤ 57

/-- A word character for Python's `\b` boundary (`[A-Za-z0-9_]` on ASCII input). -/
def isWordCh (c : Char) : Bool := isAsciiUpper c || isAsciiLower c || isDigitCh c || c == '_'

/-- Whitespace stripped by Python's `str.strip()` (ASCII fragment). -/
def isPySpace (c : Char) : Bool :=
  c.toNat == 32 || c.toNat == 9 || c.toNat == 10 || c.toNat == 13 || c.toNat == 11 || c.toNat == 12

/-- ASCII lower-casing of one character, as Python `str.lower` acts on this script's inputs. -/
def lowerCh : Char → Char
  | 'A' => 'a'
  | 'B' => 'b'
  | 'C' => 'c'
  | 'D' => 'd'
  | 'E' => 'e'
  | 'F' => 'f'
  | 'G' => 'g'
  | 'H' => 'h'
  | 'I' => 'i'
  | 'J' => 'j'
  | 'K' => 'k'
  | 'L' => 'l'
  | 'M' => 'm'
  | 'N' => 'n'
  | 'O' => 'o'
  | 'P' => 'p'
  | 'Q' => 'q'
  | 'R' => 'r'
  | 'S' => 's'
  | 'T' => 't'
  | 'U' => 'u'
  | 'V' => 'v'
  | 'W' => 'w'
  | 'X' => 'x'
  | 'Y' => 'y'
  | 'Z' => 'z'
  | c => c

/-- ASCII upper-casing of one character. -/
def upperCh : Char → Char
  | 'a' => 'A'
  | 'b' => 'B'
  | 'c' => 'C'
  | 'd' => 'D'
  | 'e' => 'E'
  | 'f' => 'F'
  | 'g' => 'G'
  | 'h' => 'H'
  | 'i' => 'I'
  | 'j' => 'J'
  | 'k' => 'K'
  | 'l' => 'L'
  | 'm' => 'M'
  | 'n' => 'N'
  | 'o' => 'O'
  | 'p' => 'P'
  | 'q' => 'Q'
  | 'r' => 'R'
  | 's' => 'S'
  | 't' => 'T'
  | 'u' => 'U'
  | 'v' => 'V'
  | 'w' => 'W'
  | 'x' => 'X'
  | 'y' => 'Y'
  | 'z' => 'Z'
  | c => c

/-- Python `str.lower()` (ASCII fragment). -/
def pyLower (s : PyStr) : PyStr := s.map lowerCh

/-- Python `str.upper()` (ASCII fragment). -/
def pyUpper (s : PyStr) : PyStr := s.map upperCh

/-- A cased character for `str.title()` (an ASCII letter on this script's inputs). -/
def isCasedCh (c : Char) : Bool := isAsciiUpper c || isAsciiLower c

/-- One step of Python `str.title()`: a cased character is title-cased when the
previous character was not cased, lower-cased otherwise; uncased characters pass
through unchanged. -/
def titleCh (prev : Bool) (c : Char) : Char :=
  if isCasedCh c then (if prev then lowerCh c else upperCh c) else c

/-- The scan underlying Python `str.title()`; `prev` records whether the
previous character was cased. -/
def titleAux : Bool → PyStr → PyStr
  | _, [] => []
  | prev, c :: rest => titleCh prev c :: titleAux (isCasedCh c) rest

/-- Python `str.title()` (ASCII fragment). -/
def pyTitle (s : PyStr) : PyStr := titleAux false s

/-- Python `str.strip()` with no argument: drop leading and trailing whitespace. -/
def pyStrip (s : PyStr) : PyStr :=
  ((s.dropWhile isPySpace).reverse.dropWhile isPySpace).reverse

/-- `leadsWith p s` holds when `p` is an initial segment of `s`. -/
def leadsWith : PyStr → PyStr → Bool
  | [], _ => true
  | _ :: _, [] => false
  | p :: ps, c :: cs => p == c && leadsWith ps cs

/-- `containsSub p s`: some contiguous segment of `s` equals `p`. -/
def containsSub (p : PyStr) : PyStr → Bool
  | [] => leadsWith p []
  | c :: rest => leadsWith p (c :: rest) || containsSub p rest

/-- Python `str.replace(pat, repl)` for a non-empty `pat`: replace every
non-overlapping occurrence, scanning left to right.  `skip` counts characters
still to consume silently from an occurrence already replaced, so the recursion
is structural on the string.  (For an empty `pat` Python also inserts `repl` at
the very end of the string; the script only ever replaces the non-empty
patterns `":"`, `","` and a digit run.) -/
def pyReplaceGo (pat repl : PyStr) : Nat → PyStr → PyStr
  | _, [] => []
  | Nat.succ k, _ :: rest => pyReplaceGo pat repl k rest
  | 0, c :: rest =>
    if leadsWith pat (c :: rest) then
      repl ++ pyReplaceGo pat repl (pat.length - 1) rest
    else
      c :: pyReplaceGo pat repl 0 rest

/-- Python `str.replace` (argument order: subject, pattern, replacement). -/
def pyReplace (s pat repl : PyStr) : PyStr := pyReplaceGo pat repl 0 s

/-- Python `dict.get(key)` over an insertion-ordered mapping (`None` becomes `none`). -/
def pyDictGet {α : Type} (d : List (PyStr × α)) (key : PyStr) : Option α :=
  match d with
  | [] => none
  | (k, v) :: rest => if k = key then some v else pyDictGet rest key

/-- The numeric value of a decimal digit string. -/
def digitsToNat (s : PyStr) : Nat := s.foldl (fun acc c => 10 * acc + (c.toNat - 48)) 0

/-- `re.findall("\d+", s)[0]` when it exists: the first maximal run of digits in `s`. -/
def firstDigitRun : PyStr → Option PyStr
  | [] => none
  | c :: rest =>
    if isDigitCh c then some (List.takeWhile isDigitCh (c :: rest)) else firstDigitRun rest

/-- `s` with its first maximal run of digits deleted (identity when there is none). -/
def removeFirstDigitRun : PyStr → PyStr
  | [] => []
  | c :: rest =>
    if isDigitCh c then rest.dropWhile isDigitCh else c :: removeFirstDigitRun rest

/-- The members of the script's `ErrorMessages` enumeration (each stands for its
localized message string; the messages themselves are opaque here, only their
identity matters). -/
inductive ErrorMessages where
  | FILE_EXISTS
  | ENVIRONMENT_JSON
  | INFRASTRUCTURE_ENVIRONMENT_JSON
  | APPLICATION_ENVIRONMENT_JSON
  | APPLICATION_NAME_INFRADEV_JSON
  | APPLICATION_NAME_INFRADEV
  | APPLICATION_ACRONYM_JSON
  | APPLICATION_ACRONYM
  | TENANT_ID_JSON
  | TENANT_ID_INFRADEV_JSON
  | TENANT_ID
  | TENANT_ID_INFRADEV
  | VNET_CIDR_JSON
  | VNET_CIDR
  | CREATE_OPTIONAL_TAGS_CHOICE_JSON
  | MANDATORY_TAGS_EMPTY_JSON
  | MANDATORY_TAGS_EMPTY
  | MANDATORY_TAGS_APPLICATION_NAME_JSON
  | MANDATORY_TAGS_ENVIRONMENT_JSON
deriving DecidableEq

/-- How an embedded function can fail: a raised `SubscriptionError` carrying an
`ErrorMessages` member, or an uncaught Python runtime error (`IndexError` from
indexing an empty `re.findall` result, `AttributeError` from calling a method on
`None`, `TypeError` from unpacking `None`). -/
inductive PyError where
  | sub (message : ErrorMessages)
  | indexError
  | attributeError
  | typeError
deriving DecidableEq

deriving instance DecidableEq for Except

/-- `true` exactly on `.ok` results. -/
def exceptOk {ε α : Type} : Except ε α → Bool
  | .ok _ => true
  | .error _ => false

/-- `true` exactly when the result is a raised `SubscriptionError` (a typed,
distinguishable validation error, as opposed to an uncaught runtime error). -/
def isTypedSubscriptionError {α : Type} : Except PyError α → Bool
  | .error (.sub _) => true
  | _ => false

/-- The script's `ENVIRONMENT_MENU`: selection code to
`(infrastructure_environment, application_environment)`. -/
def ENVIRONMENT_MENU : List (PyStr × (PyStr × PyStr)) :=
  [(pys "1", (pys "dev", pys "infradev")),
   (pys "2", (pys "prod", pys "dev")),
   (pys "3", (pys "prod", pys "hom")),
   (pys "4", (pys "prod", pys "prod"))]

/-- `environment_data_valid(environment)`: success exactly on the menu's pairs;
otherwise the infrastructure value is checked against the menu's first
components, then the application value against its second components, and an
unrecognized combination of two individually known values raises the
combination error.  (The Python builds the two component lists with a loop over
`ENVIRONMENT_MENU.values()`; `List.map` produces the same lists.) -/
def environment_data_valid (environment : PyStr × PyStr) : Except PyError Bool :=
  let environment_list := ENVIRONMENT_MENU.map (fun kv => kv.2)
  let infrastructure_environment_list := environment_list.map (fun v => v.1)
  let application_environment_list := environment_list.map (fun v => v.2)
  if environment ∈ environment_list then .ok true
  else if environment.1 ∉ infrastructure_environment_list then
    .error (.sub .INFRASTRUCTURE_ENVIRONMENT_JSON)
  else if environment.2 ∉ application_environment_list then
    .error (.sub .APPLICATION_ENVIRONMENT_JSON)
  else .error (.sub .ENVIRONMENT_JSON)

/-- Embedding of `re.search("^[A-Z]{2}[0-9]$", s)` as a Bool.  `^` anchors the
match at the start of the string, the body consumes exactly three characters,
and Python's `$` matches at the end of the string or just before a newline that
ends the string — so exactly the strings `XYd` and `XYd\n` match. -/
def reSearchAcronym (s : PyStr) : Bool :=
  match s with
  | [a, b, c] => isAsciiUpper a && isAsciiUpper b && isDigitCh c
  | [a, b, c, d] => isAsciiUpper a && isAsciiUpper b && isDigitCh c && d == '\n'
  | _ => false

/-- `application_acronym_valid(application_acronym, error_message)`. -/
def application_acronym_valid (application_acronym : PyStr) (error_message : ErrorMessages) :
    Except PyError Bool :=
  if reSearchAcronym application_acronym then .ok true else .error (.sub error_message)

/-- The language of one of the alternatives `[1-9]`, `[1-9]\d`, `[1-9]\d{2}`:
one to three digits, the first in `1`-`9`. -/
def isNumForm (d : PyStr) : Bool :=
  match d with
  | [a] => 49 ≤ a.toNat && a.toNat ≤ 57
  | [a, b] => (49 ≤ a.toNat && a.toNat ≤ 57) && isDigitCh b
  | [a, b, c] => (49 ≤ a.toNat && a.toNat ≤ 57) && isDigitCh b && isDigitCh c
  | _ => false

/-- Embedding of `re.search("^Example(?:[1-9]|[1-9]\\d|[1-9]\\d{2})$", s)` as a
Bool.  `^` anchors at the start, the literal `Example` is consumed, one
alternative of the group matches, and Python's `$` matches at the end of the
string or just before a newline that ends the string.  The alternatives have
lengths 1, 2 and 3, so the suffix after `Example` must be a matching digit
group, either alone or followed by one final newline. -/
def reSearchExampleNum (s : PyStr) : Bool :=
  leadsWith (pys "Example") s &&
    (isNumForm (s.drop 7) ||
      ((s.drop 7).getLast? == some '\n' && isNumForm (s.drop 7).dropLast))

/-- `application_name_valid(choice, application_name, error_message)`: for the
`infradev` environment the title-cased name must match the `Example`-number
pattern; any other environment accepts unconditionally.  A `choice` outside
`ENVIRONMENT_MENU` makes the Python crash with a `TypeError` on
`ENVIRONMENT_MENU.get(choice)[1]`. -/
def application_name_valid (choice application_name : PyStr) (error_message : ErrorMessages) :
    Except PyError Bool :=
  match pyDictGet ENVIRONMENT_MENU choice with
  | none => .error .typeError
  | some (_, application_environment) =>
    if application_environment = pys "infradev" then
      if reSearchExampleNum (pyTitle application_name) then .ok true
      else .error (.sub error_message)
    else .ok true

/-- The language of the CIDR regex's octet group
`([1-9]?[0-9]|1[0-9]{2}|2[0-4][0-9]|25[0-5])` as a whole digit run: a non-empty
digit string without a leading zero (unless it is `0` itself) whose value is at
most 255. -/
def isOctetText (s : PyStr) : Bool :=
  !s.isEmpty && s.all isDigitCh && (s.length == 1 || s.head? != some '0') &&
    digitsToNat s ≤ 255

/-- The language of the prefix-length group `([1-2]?[0-9]|3[0-2])` as a whole
digit run: a canonical decimal between 0 and 32. -/
def isPrefixLenText (s : PyStr) : Bool :=
  !s.isEmpty && s.all isDigitCh && (s.length == 1 || s.head? != some '0') &&
    digitsToNat s ≤ 32

/-- One `\b octet \b "."` step of the CIDR regex, starting at the current
position: the maximal digit run must be a whole octet alternative (a shorter
match would be followed by a digit, failing both the required `\b` and the
literal `.`), followed by a literal `.`. -/
def parseOctetDot (s : PyStr) : Option PyStr :=
  let ds := s.takeWhile isDigitCh
  let rest := s.dropWhile isDigitCh
  if isOctetText ds then
    match rest with
    | '.' :: r => some r
    | _ => none
  else none

/-- The whole CIDR regex body
`(\b octet \b\.){3}(\b octet \b)/\b prefix \b` matched at the current position;
returns the remainder after the prefix length (whose trailing `\b` the caller
checks). -/
def parseCidrAt (s : PyStr) : Option PyStr :=
  match parseOctetDot s with
  | none => none
  | some r1 =>
  match parseOctetDot r1 with
  | none => none
  | some r2 =>
  match parseOctetDot r2 with
  | none => none
  | some r3 =>
    let d4 := r3.takeWhile isDigitCh
    let rest4 := r3.dropWhile isDigitCh
    if isOctetText d4 then
      match rest4 with
      | '/' :: r5 =>
        let pl := r5.takeWhile isDigitCh
        let rest6 := r5.dropWhile isDigitCh
        if isPrefixLenText pl then some rest6 else none
      | _ => none
    else none

/-- The trailing `\b` after the prefix length: end of string, or a non-word
character follows. -/
def tailBoundaryOk (rest : PyStr) : Bool :=
  match rest with
  | [] => true
  | c :: _ => !isWordCh c

/-- The position scan of `re.search` for the CIDR regex: try every position
whose leading `\b` holds (start of string or previous character not a word
character; the pattern starts with a digit, a word character). -/
def cidrSearchAux : Bool → PyStr → Bool
  | _, [] => false
  | prevWord, c :: rest =>
    (!prevWord &&
      (match parseCidrAt (c :: rest) with
       | some r => tailBoundaryOk r
       | none => false))
    || cidrSearchAux (isWordCh c) rest

/-- Embedding of `re.search(cidr_regex, s)` for the script's (unanchored) CIDR
regex: some position of `s` starts a word-boundary-delimited CIDR match. -/
def cidrSearch (s : PyStr) : Bool := cidrSearchAux false s

/-- `vnet_app_ip_address_valid(vnet_app_ip_address, error_message)`. -/
def vnet_app_ip_address_valid (vnet_app_ip_address : PyStr) (error_message : ErrorMessages) :
    Except PyError Bool :=
  if cidrSearch vnet_app_ip_address then .ok true else .error (.sub error_message)

/-- `mandatory_tag_valid(mandatory_tag, error_message)`: the trimmed value must
be non-empty. -/
def mandatory_tag_valid (mandatory_tag : PyStr) (error_message : ErrorMessages) :
    Except PyError Bool :=
  if pyStrip mandatory_tag = [] then .error (.sub error_message) else .ok true

/-- One hexadecimal digit, lower-case, as Python's `json` writes `\uXXXX` escapes. -/
def hexDigitCh (n : Nat) : Char := Char.ofNat (if n < 10 then 48 + n else 87 + n)

/-- Four hexadecimal digits of `n`, most significant first. -/
def hex4 (n : Nat) : PyStr :=
  [hexDigitCh (n / 4096 % 16), hexDigitCh (n / 256 % 16), hexDigitCh (n / 16 % 16),
   hexDigitCh (n % 16)]

/-- How `json.dumps` (default `ensure_ascii=True`) writes one character of a
string value: the named escapes, printable ASCII verbatim, everything else as
`\uXXXX` (a surrogate pair above `U+FFFF`). -/
def jsonEscapeChar (c : Char) : PyStr :=
  if c == '"' then ['\\', '"']
  else if c == '\\' then ['\\', '\\']
  else if c == '\n' then ['\\', 'n']
  else if c == '\r' then ['\\', 'r']
  else if c == '\t' then ['\\', 't']
  else if c.toNat == 8 then ['\\', 'b']
  else if c.toNat == 12 then ['\\', 'f']
  else if 32 ≤ c.toNat && c.toNat ≤ 126 then [c]
  else if c.toNat < 65536 then '\\' :: 'u' :: hex4 c.toNat
  else ('\\' :: 'u' :: hex4 (55296 + (c.toNat - 65536) / 1024)) ++
       ('\\' :: 'u' :: hex4 (56320 + (c.toNat - 65536) % 1024))

/-- A JSON string literal: quotes around the escaped characters. -/
def jsonEncodeString (s : PyStr) : PyStr := '"' :: (s.map jsonEscapeChar).flatten ++ ['"']

/-- One `    "key": "value"` line of `json.dumps(obj, indent=4)`. -/
def jsonDumpsEntry (kv : PyStr × PyStr) : PyStr :=
  pys "    " ++ jsonEncodeString kv.1 ++ ':' :: ' ' :: jsonEncodeString kv.2

/-- `json.dumps(obj, indent=4)` for a string-to-string mapping in insertion
order: `{}` when empty, otherwise an opening brace, the indented entries joined
by `,\n`, a newline and the closing brace. -/
def jsonDumpsIndent4 (obj : List (PyStr × PyStr)) : PyStr :=
  match obj with
  | [] => ['\x7b', '\x7d']
  | _ :: _ =>
    '\x7b' :: '\n' :: (List.intersperse (pys ",\n") (obj.map jsonDumpsEntry)).flatten ++
      ['\n', '\x7d']

/-- `CustomJSONEncoder.encode(obj)`: the standard indented dump, then every `:`
replaced by ` =` and every `,` deleted — both replacements applied to the whole
string, values included. -/
def CustomJSONEncoder_encode (obj : List (PyStr × PyStr)) : PyStr :=
  pyReplace (pyReplace (jsonDumpsIndent4 obj) (pys ":") (pys " =")) (pys ",") []

/-- The silent-mode branch of `get_mandatory_tags(silent_mode, choice,
inputs_dict, application_name, application_acronym)`.  Arguments are the fields
the branch reads: `inputs_dict["mandatory_tags"]` (an insertion-ordered
mapping), the raw `inputs_dict["infrastructure_environment"]`, and the already
validated `application_name`.  A missing `ApplicationName` key makes Python call
`.lower()` on `None` (`AttributeError`); a missing `Environment` key compares
`None` to the environment string, which simply differs.  The `for k, v in
mandatory_tags.items()` loop body returns on its first iteration: either
`mandatory_tag_valid` raises on the first value, or the serialized tags are
returned at once, so later values are never checked.  An empty mapping skips
the loop and returns Python's implicit `None`. -/
def get_mandatory_tags (inputs_mandatory_tags : List (PyStr × PyStr))
    (inputs_infrastructure_environment application_name : PyStr) :
    Except PyError (Option PyStr) :=
  match pyDictGet inputs_mandatory_tags (pys "ApplicationName") with
  | none => .error .attributeError
  | some tag_application_name =>
    if pyLower tag_application_name ≠ pyLower application_name then
      .error (.sub .MANDATORY_TAGS_APPLICATION_NAME_JSON)
    else if pyDictGet inputs_mandatory_tags (pys "Environment") ≠
        some inputs_infrastructure_environment then
      .error (.sub .MANDATORY_TAGS_ENVIRONMENT_JSON)
    else
      match inputs_mandatory_tags with
      | [] => .ok none
      | (_, v) :: _ =>
        match mandatory_tag_valid v .MANDATORY_TAGS_EMPTY_JSON with
        | .error e => .error e
        | .ok _ => .ok (some (CustomJSONEncoder_encode inputs_mandatory_tags))

/-- `get_subscription_name(choice, application_name)`.  For `infradev` the
first digit run is taken from `re.findall("\d+", ...)[0]` (an `IndexError`
when the name has no digit), every occurrence of that run is deleted by
`str.replace`, the remainder is lower-cased and the run is left-padded with
zeros to three characters. -/
def get_subscription_name (choice application_name : PyStr) : Except PyError PyStr :=
  match pyDictGet ENVIRONMENT_MENU choice with
  | none => .error .typeError
  | some (_, application_environment) =>
    if application_environment = pys "infradev" then
      match firstDigitRun application_name with
      | none => .error .indexError
      | some application_number =>
        let final_application_name := pyLower (pyReplace application_name application_number [])
        let final_application_number :=
          if application_number.length = 1 then '0' :: '0' :: application_number
          else if application_number.length = 2 then '0' :: application_number
          else application_number
        .ok (pys "itaudev-lzdev-" ++ final_application_name ++ '-' :: final_application_number)
    else
      .ok (pys "itau-lz" ++ application_environment ++ '-' ::
        (pyLower application_name ++ pys "-001"))

/-- The acronym format as the specification words it: exactly two uppercase
letters followed by one digit, nothing else. -/
def acronymSpecMatch (s : PyStr) : Bool :=
  match s with
  | [a, b, c] => isAsciiUpper a && isAsciiUpper b && isDigitCh c
  | _ => false

/-- The application-name language as the specification words it: the whole
string is the literal `Example` followed by a number group (numeric suffix
1–999). -/
def nameSpecMatch (s : PyStr) : Bool :=
  leadsWith (pys "Example") s && isNumForm (s.drop 7)

/-- Split at the first occurrence of `sep`: `some (before, after)` when `sep`
occurs, with `sep` itself dropped. -/
def splitAtCh (sep : Char) : PyStr → Option (PyStr × PyStr)
  | [] => none
  | c :: rest =>
    if c == sep then some ([], rest)
    else
      match splitAtCh sep rest with
      | none => none
      | some (x, y) => some (c :: x, y)

/-- The CIDR form as the specification words it: the entire string is
`a.b.c.d/n` with four canonical decimal octets in 0–255 and a canonical decimal
prefix length in 0–32. -/
def specCidrForm (s : PyStr) : Bool :=
  match splitAtCh '.' s with
  | none => false
  | some (a, r1) =>
  match splitAtCh '.' r1 with
  | none => false
  | some (b, r2) =>
  match splitAtCh '.' r2 with
  | none => false
  | some (c, r3) =>
  match splitAtCh '/' r3 with
  | none => false
  | some (d, n) =>
    isOctetText a && isOctetText b && isOctetText c && isOctetText d && isPrefixLenText n

/-- Left-padding of a digit run to three characters with zeros, as claim C5
words it (1 digit → `00N`, 2 digits → `0NN`, 3 or more → unchanged). -/
def pad3 (num : PyStr) : PyStr :=
  if num.length = 1 then '0' :: '0' :: num
  else if num.length = 2 then '0' :: num
  else num

/-- The naming rule as claim C5 words it: for `infradev`, extract the first run
of digits from the name, remove it, lower-case the remainder and compose
`itaudev-lzdev-{name}-{padded number}`; for any other environment compose
`itau-lz{environment}-{lower-cased name}-001`. -/
def derive_subscription_spec (application_environment application_name : PyStr) : PyStr :=
  if application_environment = pys "infradev" then
    let number := (firstDigitRun application_name).getD []
    pys "itaudev-lzdev-" ++ pyLower (removeFirstDigitRun application_name) ++ '-' :: pad3 number
  else
    pys "itau-lz" ++ application_environment ++ '-' ::
      (pyLower application_name ++ pys "-001")

lemma charToNat_inj {a b : Char} (h : a.toNat = b.toNat) : a = b := by
  have h2 := congrArg Char.ofNat h
  rwa [Char.ofNat_toNat, Char.ofNat_toNat] at h2

lemma leadsWith_refl_append (p u : PyStr) : leadsWith p (p ++ u) = true := by
  induction p with
  | nil => rfl
  | cons c cs ih => simp [leadsWith, ih]

lemma eq_append_drop_of_leadsWith {p s : PyStr} (h : leadsWith p s = true) :
    s = p ++ s.drop p.length := by
  induction p generalizing s with
  | nil => simp
  | cons c cs ih =>
    cases s with
    | nil => simp [leadsWith] at h
    | cons d ds =>
      simp only [leadsWith, Bool.and_eq_true, beq_iff_eq] at h
      obtain ⟨rfl, h2⟩ := h
      simpa using ih h2

lemma leadsWith_false_of_head_ne {e c : Char} (es l : PyStr) (h : e ≠ c) :
    leadsWith (e :: es) (c :: l) = false := by
  simp [leadsWith, h]

lemma dropLast_of_getLast? {u : PyStr} {c : Char} (h : u.getLast? = some c) :
    u = u.dropLast ++ [c] := by
  induction u with
  | nil => simp at h
  | cons d ds ih =>
    cases ds with
    | nil => simp_all
    | cons e es =>
      rw [List.getLast?_cons_cons] at h
      have h2 := ih h
      show d :: e :: es = (d :: (e :: es).dropLast) ++ [c]
      exact congrArg (d :: ·) h2

lemma takeWhile_append_all {p : Char → Bool} {as : PyStr} (bs : PyStr)
    (h : ∀ c ∈ as, p c = true) :
    (as ++ bs).takeWhile p = as ++ bs.takeWhile p := by
  induction as with
  | nil => simp
  | cons c cs ih =>
    have hc : p c = true := h c (by simp)
    simp only [List.cons_append, List.takeWhile_cons_of_pos hc]
    rw [ih (fun d hd => h d (by simp [hd]))]

lemma dropWhile_append_all {p : Char → Bool} {as : PyStr} (bs : PyStr)
    (h : ∀ c ∈ as, p c = true) :
    (as ++ bs).dropWhile p = bs.dropWhile p := by
  induction as with
  | nil => simp
  | cons c cs ih =>
    have hc : p c = true := h c (by simp)
    simp only [List.cons_append, List.dropWhile_cons_of_pos hc]
    exact ih (fun d hd => h d (by simp [hd]))

lemma takeWhile_eq_nil_of_head {p : Char → Bool} {bs : PyStr}
    (h : ∀ c ∈ bs, p c = false) : bs.takeWhile p = [] := by
  cases bs with
  | nil => rfl
  | cons c cs => exact List.takeWhile_cons_of_neg (by simp [h c (by simp)])

lemma dropWhile_eq_self_of_head {p : Char → Bool} {bs : PyStr}
    (h : ∀ c ∈ bs, p c = false) : bs.dropWhile p = bs := by
  cases bs with
  | nil => rfl
  | cons c cs => exact List.dropWhile_cons_of_neg (by simp [h c (by simp)])

lemma lowerCh_digit (c : Char) : isDigitCh (lowerCh c) = isDigitCh c := by
  unfold lowerCh
  split <;> rfl

lemma upperCh_digit (c : Char) : isDigitCh (upperCh c) = isDigitCh c := by
  unfold upperCh
  split <;> rfl

lemma titleCh_digit (prev : Bool) (c : Char) : isDigitCh (titleCh prev c) = isDigitCh c := by
  unfold titleCh
  split
  · split
    · exact lowerCh_digit c
    · exact upperCh_digit c
  · rfl

lemma titleAux_digit_mask (s : PyStr) (prev : Bool) :
    (titleAux prev s).map isDigitCh = s.map isDigitCh := by
  induction s generalizing prev with
  | nil => rfl
  | cons c cs ih => simp [titleAux, titleCh_digit, ih]

lemma mapSplit {α β : Type} (f : α → β) {s : List α} {m1 m2 : List β}
    (h : s.map f = m1 ++ m2) :
    ∃ t1 t2, s = t1 ++ t2 ∧ t1.map f = m1 ∧ t2.map f = m2 := by
  induction m1 generalizing s with
  | nil => exact ⟨[], s, by simp, rfl, by simpa using h⟩
  | cons b bs ih =>
    cases s with
    | nil => simp at h
    | cons a as =>
      simp only [List.map_cons, List.cons_append, List.cons.injEq] at h
      obtain ⟨hb, hrest⟩ := h
      obtain ⟨t1, t2, hs, hm1, hm2⟩ := ih hrest
      exact ⟨a :: t1, t2, by simp [hs], by simp [hb, hm1], hm2⟩

lemma all_of_map_replicate {f : Char → Bool} {t : PyStr} {n : Nat} {b : Bool}
    (h : t.map f = List.replicate n b) : ∀ c ∈ t, f c = b := by
  induction t generalizing n with
  | nil => simp
  | cons a as ih =>
    cases n with
    | zero => simp at h
    | succ m =>
      rw [List.replicate_succ] at h
      simp only [List.map_cons, List.cons.injEq] at h
      intro c hc
      rcases List.mem_cons.mp hc with rfl | hc2
      · exact h.1
      · exact ih h.2 c hc2

lemma map_replicate_of_all {f : Char → Bool} {t : PyStr} {b : Bool}
    (h : ∀ c ∈ t, f c = b) : t.map f = List.replicate t.length b := by
  induction t with
  | nil => rfl
  | cons a as ih =>
    rw [List.length_cons, List.replicate_succ, List.map_cons,
      ih (fun c hc => h c (by simp [hc])), h a (by simp)]

lemma firstDigitRun_decomp {w es s2 : PyStr}
    (hw : ∀ c ∈ w, isDigitCh c = false) (hne : es ≠ [])
    (hes : ∀ c ∈ es, isDigitCh c = true) (hs2 : ∀ c ∈ s2, isDigitCh c = false) :
    firstDigitRun (w ++ es ++ s2) = some es := by
  induction w with
  | nil =>
    cases es with
    | nil => exact absurd rfl hne
    | cons e es2 =>
      have he : isDigitCh e = true := hes e (by simp)
      simp only [List.nil_append, List.cons_append, firstDigitRun, he, if_pos]
      simp only [List.append_eq]
      rw [List.takeWhile_cons_of_pos he,
        takeWhile_append_all s2 (fun c hc => hes c (by simp [hc])),
        takeWhile_eq_nil_of_head hs2, List.append_nil]
  | cons c cs ih =>
    have hc : isDigitCh c = false := hw c (by simp)
    simp only [List.cons_append, firstDigitRun, hc]
    exact ih (fun d hd => hw d (by simp [hd]))

lemma removeFirstDigitRun_decomp {w es s2 : PyStr}
    (hw : ∀ c ∈ w, isDigitCh c = false) (hne : es ≠ [])
    (hes : ∀ c ∈ es, isDigitCh c = true) (hs2 : ∀ c ∈ s2, isDigitCh c = false) :
    removeFirstDigitRun (w ++ es ++ s2) = w ++ s2 := by
  induction w with
  | nil =>
    cases es with
    | nil => exact absurd rfl hne
    | cons e es2 =>
      have he : isDigitCh e = true := hes e (by simp)
      simp only [List.nil_append, List.cons_append, removeFirstDigitRun, he, if_pos]
      simp only [List.append_eq]
      rw [dropWhile_append_all s2 (fun c hc => hes c (by simp [hc])),
        dropWhile_eq_self_of_head hs2]
  | cons c cs ih =>
    have hc : isDigitCh c = false := hw c (by simp)
    simp only [List.cons_append, removeFirstDigitRun, hc]
    simp only [Bool.false_eq_true, if_false, List.cons.injEq, true_and]
    exact ih (fun d hd => hw d (by simp [hd]))

lemma pyReplaceGo_skip (pat repl : PyStr) (u v : PyStr) :
    pyReplaceGo pat repl u.length (u ++ v) = pyReplaceGo pat repl 0 v := by
  induction u with
  | nil => rfl
  | cons c cs ih => simpa [pyReplaceGo] using ih

lemma pyReplaceGo_prefix_no_match {e : Char} {es : PyStr} (repl : PyStr) {w : PyStr}
    (t : PyStr) (he : isDigitCh e = true) (hw : ∀ c ∈ w, isDigitCh c = false) :
    pyReplaceGo (e :: es) repl 0 (w ++ t) = w ++ pyReplaceGo (e :: es) repl 0 t := by
  induction w with
  | nil => rfl
  | cons c cs ih =>
    have hc : isDigitCh c = false := hw c (by simp)
    have hne : e ≠ c := fun h => by rw [h] at he; rw [he] at hc; exact Bool.true_eq_false.mp hc
    simp only [List.cons_append, pyReplaceGo, leadsWith_false_of_head_ne es _ hne,
      Bool.false_eq_true, if_false, List.cons.injEq, true_and]
    exact ih (fun d hd => hw d (by simp [hd]))

lemma pyReplace_decomp {w es s2 : PyStr}
    (hw : ∀ c ∈ w, isDigitCh c = false) (hne : es ≠ [])
    (hes : ∀ c ∈ es, isDigitCh c = true) (hs2 : ∀ c ∈ s2, isDigitCh c = false) :
    pyReplace (w ++ es ++ s2) es [] = w ++ s2 := by
  cases es with
  | nil => exact absurd rfl hne
  | cons e es2 =>
    have he : isDigitCh e = true := hes e (by simp)
    have step : pyReplaceGo (e :: es2) [] 0 ((e :: es2) ++ s2) =
        pyReplaceGo (e :: es2) [] 0 s2 := by
      have hm2 : leadsWith (e :: es2) (e :: (es2 ++ s2)) = true :=
        leadsWith_refl_append (e :: es2) s2
      show (if leadsWith (e :: es2) (e :: (es2 ++ s2)) = true then
              [] ++ pyReplaceGo (e :: es2) [] ((e :: es2).length - 1) (es2 ++ s2)
            else e :: pyReplaceGo (e :: es2) [] 0 (es2 ++ s2)) =
          pyReplaceGo (e :: es2) [] 0 s2
      rw [if_pos hm2]
      show pyReplaceGo (e :: es2) [] es2.length (es2 ++ s2) = pyReplaceGo (e :: es2) [] 0 s2
      exact pyReplaceGo_skip (e :: es2) [] es2 s2
    have last : pyReplaceGo (e :: es2) [] 0 s2 = s2 := by
      have h2 := @pyReplaceGo_prefix_no_match e es2 [] s2 [] he hs2
      simpa [pyReplaceGo] using h2
    show pyReplaceGo (e :: es2) [] 0 (w ++ (e :: es2) ++ s2) = w ++ s2
    rw [List.append_assoc, pyReplaceGo_prefix_no_match [] ((e :: es2) ++ s2) he hw, step, last]

lemma isNumForm_digits {d : PyStr} (h : isNumForm d = true) :
    d ≠ [] ∧ ∀ c ∈ d, isDigitCh c = true := by
  rcases d with _ | ⟨a, _ | ⟨b, _ | ⟨c, _ | ⟨e, tl⟩⟩⟩⟩
  · simp [isNumForm] at h
  · simp only [isNumForm, Bool.and_eq_true, decide_eq_true_eq] at h
    refine ⟨by simp, ?_⟩
    intro x hx
    simp only [List.mem_singleton] at hx
    subst hx
    simp only [isDigitCh, Bool.and_eq_true, decide_eq_true_eq]
    omega
  · simp only [isNumForm, isDigitCh, Bool.and_eq_true, decide_eq_true_eq] at h
    refine ⟨by simp, ?_⟩
    intro x hx
    simp only [List.mem_cons, List.not_mem_nil, or_false] at hx
    simp only [isDigitCh, Bool.and_eq_true, decide_eq_true_eq]
    rcases hx with rfl | rfl <;> omega
  · simp only [isNumForm, isDigitCh, Bool.and_eq_true, decide_eq_true_eq] at h
    refine ⟨by simp, ?_⟩
    intro x hx
    simp only [List.mem_cons, List.not_mem_nil, or_false] at hx
    simp only [isDigitCh, Bool.and_eq_true, decide_eq_true_eq]
    rcases hx with rfl | rfl | rfl <;> omega
  · simp [isNumForm] at h

lemma reSearchExampleNum_iff (t : PyStr) :
    reSearchExampleNum t = true ↔
      ∃ ds, isNumForm ds = true ∧
        (t = pys "Example" ++ ds ∨ t = pys "Example" ++ (ds ++ ['\n'])) := by
  constructor
  · intro h
    simp only [reSearchExampleNum, Bool.and_eq_true, Bool.or_eq_true] at h
    obtain ⟨hlead, hrest⟩ := h
    have ht : t = pys "Example" ++ t.drop 7 := eq_append_drop_of_leadsWith hlead
    rcases hrest with hnum | hnl
    · exact ⟨t.drop 7, hnum, Or.inl ht⟩
    · simp only [Bool.and_eq_true, beq_iff_eq] at hnl
      obtain ⟨hlast, hnum⟩ := hnl
      have hdec : t.drop 7 = (t.drop 7).dropLast ++ ['\n'] := dropLast_of_getLast? hlast
      refine ⟨(t.drop 7).dropLast, hnum, Or.inr ?_⟩
      calc t = pys "Example" ++ t.drop 7 := ht
        _ = pys "Example" ++ ((t.drop 7).dropLast ++ ['\n']) := by rw [← hdec]
  · rintro ⟨ds, hnum, ht | ht⟩ <;> subst ht <;>
      simp only [reSearchExampleNum, Bool.and_eq_true, Bool.or_eq_true]
    · refine ⟨leadsWith_refl_append _ _, Or.inl ?_⟩
      rw [List.drop_left' (by rfl)]
      exact hnum
    · refine ⟨leadsWith_refl_append _ _, Or.inr ?_⟩
      rw [List.drop_left' (by rfl)]
      constructor
      · simp
      · rw [List.dropLast_concat]
        exact hnum

lemma name_decomp_of_reSearch {name : PyStr}
    (h : reSearchExampleNum (pyTitle name) = true) :
    ∃ w es s2, name = w ++ es ++ s2 ∧ (∀ c ∈ w, isDigitCh c = false) ∧ es ≠ [] ∧
      (∀ c ∈ es, isDigitCh c = true) ∧ (∀ c ∈ s2, isDigitCh c = false) := by
  obtain ⟨ds, hnum, hcase⟩ := (reSearchExampleNum_iff _).mp h
  obtain ⟨hdne, hdsd⟩ := isNumForm_digits hnum
  have hmask : name.map isDigitCh = (pyTitle name).map isDigitCh :=
    (titleAux_digit_mask name false).symm
  have hex : (pys "Example").map isDigitCh = List.replicate 7 false := by decide
  have hds : ds.map isDigitCh = List.replicate ds.length true := map_replicate_of_all hdsd
  rcases hcase with ht | ht
  · rw [ht, List.map_append, hex, hds] at hmask
    obtain ⟨w, t2, hn, hm1, hm2⟩ := mapSplit isDigitCh hmask
    refine ⟨w, t2, [], by simpa using hn, all_of_map_replicate hm1, ?_,
      all_of_map_replicate hm2, by simp⟩
    intro h0
    rw [h0] at hm2
    have hlen : ds.length = 0 := by simpa using congrArg List.length hm2.symm
    exact hdne (List.eq_nil_of_length_eq_zero (by omega))
  · rw [ht, List.map_append, List.map_append, hex, hds] at hmask
    obtain ⟨w, trest, hn, hm1, hm2⟩ := mapSplit isDigitCh hmask
    have h3 : trest.map isDigitCh = List.replicate ds.length true ++ [false] := hm2
    obtain ⟨es, s2, hr, hma, hmb⟩ := mapSplit isDigitCh h3
    refine ⟨w, es, s2, by rw [hn, hr, List.append_assoc], all_of_map_replicate hm1, ?_,
      all_of_map_replicate hma, ?_⟩
    · intro h0
      rw [h0] at hma
      have hlen : ds.length = 0 := by simpa using congrArg List.length hma.symm
      exact hdne (List.eq_nil_of_length_eq_zero (by omega))
    · have hs : s2.map isDigitCh = List.replicate 1 false := by simpa using hmb
      exact all_of_map_replicate hs

lemma application_name_valid_one (name : PyStr) (msg : ErrorMessages) :
    application_name_valid (pys "1") name msg =
      (if reSearchExampleNum (pyTitle name) = true then .ok true
       else .error (.sub msg)) := rfl

/-- Claim C5: for every valid environment pair and validated application name,
the derived subscription name is the one the specification describes: for
`infradev`, the first run of digits is extracted from the name, removed from
it, the remainder lower-cased and the run left-padded with zeros to three
digits, composing `itaudev-lzdev-{name}-{number}`; for any other environment,
`itau-lz{application_environment}-{lower-cased name}-001`. -/
theorem claim_C5_subscription_name (choice infra app name : PyStr) (msg : ErrorMessages)
    (hmenu : pyDictGet ENVIRONMENT_MENU choice = some (infra, app))
    (hvalid : application_name_valid choice name msg = .ok true) :
    get_subscription_name choice name = .ok (derive_subscription_spec app name) := by
  by_cases h1 : pys "1" = choice
  · subst h1
    have happ : app = pys "infradev" := by
      rw [show pyDictGet ENVIRONMENT_MENU (pys "1") =
        some (pys "dev", pys "infradev") from rfl] at hmenu
      simp only [Option.some.injEq, Prod.mk.injEq] at hmenu
      exact hmenu.2.symm
    subst happ
    rw [application_name_valid_one] at hvalid
    have hre : reSearchExampleNum (pyTitle name) = true := by
      by_cases hb : reSearchExampleNum (pyTitle name) = true
      · exact hb
      · rw [if_neg hb] at hvalid
        exact absurd hvalid (by simp)
    obtain ⟨w, es, s2, hname, hw, hesne, hes, hs2⟩ := name_decomp_of_reSearch hre
    subst hname
    show (match firstDigitRun (w ++ es ++ s2) with
          | none => Except.error PyError.indexError
          | some application_number =>
            Except.ok (pys "itaudev-lzdev-" ++
              pyLower (pyReplace (w ++ es ++ s2) application_number []) ++
              '-' :: (if application_number.length = 1 then '0' :: '0' :: application_number
                else if application_number.length = 2 then '0' :: application_number
                else application_number))) =
        Except.ok (derive_subscription_spec (pys "infradev") (w ++ es ++ s2))
    rw [firstDigitRun_decomp hw hesne hes hs2]
    show Except.ok (pys "itaudev-lzdev-" ++ pyLower (pyReplace (w ++ es ++ s2) es []) ++
        '-' :: (if es.length = 1 then '0' :: '0' :: es
          else if es.length = 2 then '0' :: es else es)) =
      Except.ok (derive_subscription_spec (pys "infradev") (w ++ es ++ s2))
    rw [pyReplace_decomp hw hesne hes hs2]
    unfold derive_subscription_spec
    rw [if_pos rfl, firstDigitRun_decomp hw hesne hes hs2,
      removeFirstDigitRun_decomp hw hesne hes hs2]
    rfl
  · by_cases h2 : pys "2" = choice
    · subst h2
      have happ : app = pys "dev" := by
        rw [show pyDictGet ENVIRONMENT_MENU (pys "2") =
          some (pys "prod", pys "dev") from rfl] at hmenu
        simp only [Option.some.injEq, Prod.mk.injEq] at hmenu
        exact hmenu.2.symm
      subst happ
      rfl
    · by_cases h3 : pys "3" = choice
      · subst h3
        have happ : app = pys "hom" := by
          rw [show pyDictGet ENVIRONMENT_MENU (pys "3") =
            some (pys "prod", pys "hom") from rfl] at hmenu
          simp only [Option.some.injEq, Prod.mk.injEq] at hmenu
          exact hmenu.2.symm
        subst happ
        rfl
      · by_cases h4 : pys "4" = choice
        · subst h4
          have happ : app = pys "prod" := by
            rw [show pyDictGet ENVIRONMENT_MENU (pys "4") =
              some (pys "prod", pys "prod") from rfl] at hmenu
            simp only [Option.some.injEq, Prod.mk.injEq] at hmenu
            exact hmenu.2.symm
          subst happ
          rfl
        · simp only [ENVIRONMENT_MENU, pyDictGet, if_neg h1, if_neg h2, if_neg h3,
            if_neg h4] at hmenu
          exact absurd hmenu (by simp)

/-- Witness for claim C5: the two derivations the specification lists, obtained
by applying the theorem at concrete inputs. -/
theorem claim_C5_witness :
    get_subscription_name (pys "1") (pys "Example7") =
      .ok (pys "itaudev-lzdev-example-007") ∧
    get_subscription_name (pys "3") (pys "Checkout") =
      .ok (pys "itau-lzhom-checkout-001") := by
  constructor
  · rw [claim_C5_subscription_name (pys "1") (pys "dev") (pys "infradev") (pys "Example7")
      .APPLICATION_NAME_INFRADEV_JSON rfl rfl]
    rfl
  · rw [claim_C5_subscription_name (pys "3") (pys "prod") (pys "hom") (pys "Checkout")
      .APPLICATION_NAME_INFRADEV_JSON rfl rfl]
    rfl

lemma isNumForm_iff (ds : PyStr) :
    isNumForm ds = true ↔
      (ds.all isDigitCh = true ∧ ds ≠ [] ∧ ds.length ≤ 3 ∧ ds.head? ≠ some '0' ∧
        1 ≤ digitsToNat ds ∧ digitsToNat ds ≤ 999) := by
  have hz : ('0' : Char).toNat = 48 := rfl
  rcases ds with _ | ⟨a, _ | ⟨b, _ | ⟨c, _ | ⟨e, tl⟩⟩⟩⟩
  · simp [isNumForm]
  · simp only [isNumForm, isDigitCh, List.all_cons, List.all_nil, Bool.and_true,
      Bool.and_eq_true, decide_eq_true_eq, List.head?_cons, ne_eq, Option.some.injEq,
      digitsToNat, List.foldl, List.length_singleton, List.length_nil]
    constructor
    · intro h
      refine ⟨by omega, by simp, by omega, ?_, by omega, by omega⟩
      intro h0
      rw [h0, hz] at h
      omega
    · intro ⟨h1, _, _, h4, h5, h6⟩
      constructor
      · rcases Nat.lt_or_ge 48 a.toNat with h | h
        · omega
        · exfalso
          exact h4 (charToNat_inj (by omega))
      · omega
  · simp only [isNumForm, isDigitCh, List.all_cons, List.all_nil, Bool.and_true,
      Bool.and_eq_true, decide_eq_true_eq, List.head?_cons, ne_eq, Option.some.injEq,
      digitsToNat, List.foldl, List.length_cons, List.length_nil]
    constructor
    · intro ⟨⟨h1, h2⟩, h3, h4⟩
      refine ⟨⟨⟨by omega, by omega⟩, by omega, by omega⟩, by simp, by omega, ?_, by omega,
        by omega⟩
      intro h0
      rw [h0, hz] at h1
      omega
    · intro ⟨⟨⟨h1, h2⟩, h3, h4⟩, _, _, h7, h8, h9⟩
      refine ⟨⟨?_, by omega⟩, by omega, by omega⟩
      rcases Nat.lt_or_ge 48 a.toNat with h | h
      · omega
      · exfalso
        exact h7 (charToNat_inj (by omega))
  · simp only [isNumForm, isDigitCh, List.all_cons, List.all_nil, Bool.and_true,
      Bool.and_eq_true, decide_eq_true_eq, List.head?_cons, ne_eq, Option.some.injEq,
      digitsToNat, List.foldl, List.length_cons, List.length_nil]
    constructor
    · intro ⟨⟨⟨h1, h2⟩, h3, h4⟩, h5, h6⟩
      refine ⟨⟨⟨by omega, by omega⟩, ⟨by omega, by omega⟩, by omega, by omega⟩, by simp,
        by omega, ?_, by omega, by omega⟩
      intro h0
      rw [h0, hz] at h1
      omega
    · intro ⟨⟨⟨h1, h2⟩, ⟨h3, h4⟩, h5, h6⟩, _, _, h9, h10, h11⟩
      refine ⟨⟨⟨?_, by omega⟩, by omega, by omega⟩, by omega, by omega⟩
      rcases Nat.lt_or_ge 48 a.toNat with h | h
      · omega
      · exfalso
        exact h9 (charToNat_inj (by omega))
  · simp only [isNumForm, List.length_cons]
    constructor
    · intro h
      exact absurd h (by simp)
    · rintro ⟨-, -, hlen, -⟩
      omega

/-- Counterexample to claim C8 as stated: the code also accepts
`"Example7\n"` (Python's `$` matches before a trailing newline), whose
title-cased form is not in the language of
`^Example(?:[1-9]|[1-9]\d|[1-9]\d{2})$` read as a whole-string pattern. -/
theorem claim_C8_counterexample :
    application_name_valid (pys "1") (pys "Example7\n") .APPLICATION_NAME_INFRADEV_JSON =
      .ok true ∧
    nameSpecMatch (pyTitle (pys "Example7\n")) = false := by
  exact ⟨rfl, rfl⟩

/-- Claim C8 (amended): for the `infradev` choice the validator accepts
exactly the names whose title-cased form is `Example` followed by a numeric
suffix in 1–999, either at the very end or followed by one final newline
(Python's `$`); `Example1` and `Example999` are accepted, `Example1000` and
`Example0` rejected with the name error; every other menu choice accepts any
input unconditionally. -/
theorem claim_C8_name_validator :
    (∀ name msg, application_name_valid (pys "1") name msg = .ok true ↔
      ∃ ds, isNumForm ds = true ∧
        (pyTitle name = pys "Example" ++ ds ∨
         pyTitle name = pys "Example" ++ (ds ++ ['\n']))) ∧
    (∀ ds, isNumForm ds = true ↔
      (ds.all isDigitCh = true ∧ ds ≠ [] ∧ ds.length ≤ 3 ∧ ds.head? ≠ some '0' ∧
        1 ≤ digitsToNat ds ∧ digitsToNat ds ≤ 999)) ∧
    application_name_valid (pys "1") (pys "Example1") .APPLICATION_NAME_INFRADEV_JSON =
      .ok true ∧
    application_name_valid (pys "1") (pys "Example999") .APPLICATION_NAME_INFRADEV_JSON =
      .ok true ∧
    application_name_valid (pys "1") (pys "Example1000") .APPLICATION_NAME_INFRADEV_JSON =
      .error (.sub .APPLICATION_NAME_INFRADEV_JSON) ∧
    application_name_valid (pys "1") (pys "Example0") .APPLICATION_NAME_INFRADEV_JSON =
      .error (.sub .APPLICATION_NAME_INFRADEV_JSON) ∧
    (∀ choice name msg,
      (choice = pys "2" ∨ choice = pys "3" ∨ choice = pys "4") →
      application_name_valid choice name msg = .ok true) := by
  refine ⟨?_, isNumForm_iff, rfl, rfl, rfl, rfl, ?_⟩
  · intro name msg
    rw [application_name_valid_one]
    by_cases hb : reSearchExampleNum (pyTitle name) = true
    · rw [if_pos hb]
      simp only [true_iff]
      exact (reSearchExampleNum_iff _).mp hb
    · rw [if_neg hb]
      constructor
      · intro h
        exact absurd h (by simp)
      · intro h
        exact absurd ((reSearchExampleNum_iff _).mpr h) hb
  · intro choice name msg hc
    rcases hc with rfl | rfl | rfl <;> rfl

/-- Counterexample to claim C2 as stated: the code also accepts `"AB1\n"`
(Python's `$` matches before a trailing newline), which is not two uppercase
letters followed by one digit. -/
theorem claim_C2_counterexample :
    application_acronym_valid (pys "AB1\n") .APPLICATION_ACRONYM_JSON = .ok true ∧
    acronymSpecMatch (pys "AB1\n") = false := by
  exact ⟨rfl, rfl⟩

/-- Claim C2 (amended): the acronym validator accepts exactly the strings of
two uppercase letters and one digit, either alone or followed by one final
newline (Python's `$`); `AB1` is accepted while `ab1`, `ABC` and `A1B` are
rejected with the acronym error. -/
theorem claim_C2_acronym_validator :
    (∀ s msg, application_acronym_valid s msg = .ok true ↔
      (acronymSpecMatch s = true ∨
        ∃ t, acronymSpecMatch t = true ∧ s = t ++ ['\n'])) ∧
    application_acronym_valid (pys "AB1") .APPLICATION_ACRONYM_JSON = .ok true ∧
    application_acronym_valid (pys "ab1") .APPLICATION_ACRONYM_JSON =
      .error (.sub .APPLICATION_ACRONYM_JSON) ∧
    application_acronym_valid (pys "ABC") .APPLICATION_ACRONYM_JSON =
      .error (.sub .APPLICATION_ACRONYM_JSON) ∧
    application_acronym_valid (pys "A1B") .APPLICATION_ACRONYM_JSON =
      .error (.sub .APPLICATION_ACRONYM_JSON) := by
  refine ⟨?_, rfl, rfl, rfl, rfl⟩
  intro s msg
  unfold application_acronym_valid
  by_cases hb : reSearchAcronym s = true
  · rw [if_pos hb]
    simp only [true_iff]
    rcases s with _ | ⟨a, _ | ⟨b, _ | ⟨c, _ | ⟨d, _ | ⟨e, tl⟩⟩⟩⟩⟩
    · exact absurd hb (by simp [reSearchAcronym])
    · exact absurd hb (by simp [reSearchAcronym])
    · exact absurd hb (by simp [reSearchAcronym])
    · exact Or.inl hb
    · simp only [reSearchAcronym, Bool.and_eq_true, beq_iff_eq] at hb
      obtain ⟨⟨⟨ha, hbu⟩, hc⟩, hd⟩ := hb
      subst hd
      refine Or.inr ⟨[a, b, c], ?_, rfl⟩
      simp [acronymSpecMatch, ha, hbu, hc]
    · exact absurd hb (by simp [reSearchAcronym])
  · rw [if_neg hb]
    constructor
    · intro h
      exact absurd h (by simp)
    · intro h
      exfalso
      apply hb
      rcases h with hspec | ⟨t, hspec, hst⟩
      · rcases s with _ | ⟨a, _ | ⟨b, _ | ⟨c, _ | ⟨d, tl⟩⟩⟩⟩ <;>
          simp_all [acronymSpecMatch, reSearchAcronym]
      · subst hst
        rcases t with _ | ⟨a, _ | ⟨b, _ | ⟨c, _ | ⟨d, tl⟩⟩⟩⟩ <;>
          simp_all [acronymSpecMatch, reSearchAcronym]

/-- Claim C4: environment classification follows the documented precedence:
an exact match to one of the four canonical pairs succeeds; otherwise an
infrastructure value outside `{dev, prod}` raises the infrastructure error
(checked first); otherwise an application value outside
`{infradev, dev, hom, prod}` raises the application error; otherwise (both
values individually legal but not a recognized combination) the combination
error is raised. -/
theorem claim_C4_environment_classification :
    (∀ p : PyStr × PyStr,
      p ∈ [(pys "dev", pys "infradev"), (pys "prod", pys "dev"),
           (pys "prod", pys "hom"), (pys "prod", pys "prod")] →
      environment_data_valid p = .ok true) ∧
    (∀ ie ae : PyStr, ie ∉ [pys "dev", pys "prod"] →
      environment_data_valid (ie, ae) = .error (.sub .INFRASTRUCTURE_ENVIRONMENT_JSON)) ∧
    (∀ ie ae : PyStr, ie ∈ [pys "dev", pys "prod"] →
      ae ∉ [pys "infradev", pys "dev", pys "hom", pys "prod"] →
      environment_data_valid (ie, ae) = .error (.sub .APPLICATION_ENVIRONMENT_JSON)) ∧
    (∀ ie ae : PyStr, ie ∈ [pys "dev", pys "prod"] →
      ae ∈ [pys "infradev", pys "dev", pys "hom", pys "prod"] →
      (ie, ae) ∉ [(pys "dev", pys "infradev"), (pys "prod", pys "dev"),
                  (pys "prod", pys "hom"), (pys "prod", pys "prod")] →
      environment_data_valid (ie, ae) = .error (.sub .ENVIRONMENT_JSON)) := by
  refine ⟨?_, ?_, ?_, ?_⟩
  · intro p hp
    simp only [List.mem_cons, List.not_mem_nil, or_false] at hp
    rcases hp with rfl | rfl | rfl | rfl <;> rfl
  · intro ie ae h
    simp only [List.mem_cons, List.not_mem_nil, or_false, not_or] at h
    have hA : (ie, ae) ∉ ENVIRONMENT_MENU.map (fun kv => kv.2) := by
      simp only [ENVIRONMENT_MENU, List.map, List.mem_cons, List.not_mem_nil, or_false,
        Prod.mk.injEq, not_or]
      tauto
    have hB : ie ∉ (ENVIRONMENT_MENU.map (fun kv => kv.2)).map (fun v => v.1) := by
      simp only [ENVIRONMENT_MENU, List.map, List.mem_cons, List.not_mem_nil, or_false,
        not_or]
      tauto
    unfold environment_data_valid
    rw [if_neg hA, if_pos hB]
  · intro ie ae hin h
    simp only [List.mem_cons, List.not_mem_nil, or_false] at hin
    simp only [List.mem_cons, List.not_mem_nil, or_false, not_or] at h
    have hA : (ie, ae) ∉ ENVIRONMENT_MENU.map (fun kv => kv.2) := by
      simp only [ENVIRONMENT_MENU, List.map, List.mem_cons, List.not_mem_nil, or_false,
        Prod.mk.injEq, not_or]
      tauto
    have hB : ¬ ie ∉ (ENVIRONMENT_MENU.map (fun kv => kv.2)).map (fun v => v.1) := by
      simp only [ENVIRONMENT_MENU, List.map, List.mem_cons, List.not_mem_nil, or_false,
        not_or]
      tauto
    have hC : ae ∉ ((ENVIRONMENT_MENU.map (fun kv => kv.2)).map (fun v => v.2)) := by
      simp only [ENVIRONMENT_MENU, List.map, List.mem_cons, List.not_mem_nil, or_false,
        not_or]
      tauto
    unfold environment_data_valid
    rw [if_neg hA, if_neg hB, if_pos hC]
  · intro ie ae hie hae hpair
    simp only [List.mem_cons, List.not_mem_nil, or_false] at hie hae
    simp only [List.mem_cons, List.not_mem_nil, or_false, not_or, Prod.mk.injEq,
      not_and] at hpair
    have hA : (ie, ae) ∉ ENVIRONMENT_MENU.map (fun kv => kv.2) := by
      simp only [ENVIRONMENT_MENU, List.map, List.mem_cons, List.not_mem_nil, or_false,
        Prod.mk.injEq, not_or, not_and]
      tauto
    have hB : ¬ ie ∉ (ENVIRONMENT_MENU.map (fun kv => kv.2)).map (fun v => v.1) := by
      simp only [ENVIRONMENT_MENU, List.map, List.mem_cons, List.not_mem_nil, or_false,
        not_or]
      tauto
    have hC : ¬ ae ∉ ((ENVIRONMENT_MENU.map (fun kv => kv.2)).map (fun v => v.2)) := by
      simp only [ENVIRONMENT_MENU, List.map, List.mem_cons, List.not_mem_nil, or_false,
        not_or]
      tauto
    unfold environment_data_valid
    rw [if_neg hA, if_neg hB, if_neg hC]

lemma takeWhile_all {p : Char → Bool} {u : PyStr} (h : ∀ c ∈ u, p c = true) :
    u.takeWhile p = u := by
  have h2 := @takeWhile_append_all p u [] h
  simpa using h2

lemma dropWhile_all {p : Char → Bool} {u : PyStr} (h : ∀ c ∈ u, p c = true) :
    u.dropWhile p = [] := by
  have h2 := @dropWhile_append_all p u [] h
  simpa using h2

lemma isOctetText_digits {a : PyStr} (h : isOctetText a = true) :
    a ≠ [] ∧ ∀ c ∈ a, isDigitCh c = true := by
  have h2 : (!a.isEmpty) = true ∧ a.all isDigitCh = true := by
    simp only [isOctetText, Bool.and_eq_true] at h
    exact ⟨h.1.1.1, h.1.1.2⟩
  refine ⟨?_, List.all_eq_true.mp h2.2⟩
  cases a
  · simp at h2
  · simp

lemma isPrefixLenText_digits {n : PyStr} (h : isPrefixLenText n = true) :
    n ≠ [] ∧ ∀ c ∈ n, isDigitCh c = true := by
  have h2 : (!n.isEmpty) = true ∧ n.all isDigitCh = true := by
    simp only [isPrefixLenText, Bool.and_eq_true] at h
    exact ⟨h.1.1.1, h.1.1.2⟩
  refine ⟨?_, List.all_eq_true.mp h2.2⟩
  cases n
  · simp at h2
  · simp

lemma parseOctetDot_of_parts {a rest : PyStr} (ha : isOctetText a = true) :
    parseOctetDot (a ++ '.' :: rest) = some rest := by
  have had := (isOctetText_digits ha).2
  unfold parseOctetDot
  rw [takeWhile_append_all _ had, dropWhile_append_all _ had,
    List.takeWhile_cons_of_neg (by simp [isDigitCh]),
    List.dropWhile_cons_of_neg (by simp [isDigitCh]), List.append_nil, if_pos ha]
  rfl

lemma parseCidrAt_of_form {a b c d n : PyStr} (ha : isOctetText a = true)
    (hb : isOctetText b = true) (hc : isOctetText c = true) (hd : isOctetText d = true)
    (hn : isPrefixLenText n = true) :
    parseCidrAt (a ++ '.' :: (b ++ '.' :: (c ++ '.' :: (d ++ '/' :: n)))) = some [] := by
  have hdd := (isOctetText_digits hd).2
  have hnd := (isPrefixLenText_digits hn).2
  unfold parseCidrAt
  rw [parseOctetDot_of_parts ha]
  simp only
  rw [parseOctetDot_of_parts hb]
  simp only
  rw [parseOctetDot_of_parts hc]
  simp only
  rw [takeWhile_append_all _ hdd, dropWhile_append_all _ hdd,
    List.takeWhile_cons_of_neg (by simp [isDigitCh]),
    List.dropWhile_cons_of_neg (by simp [isDigitCh]), List.append_nil, if_pos hd]
  simp only
  rw [takeWhile_all hnd, dropWhile_all hnd, if_pos hn]

lemma splitAtCh_eq {sep : Char} :
    ∀ {s x y : PyStr}, splitAtCh sep s = some (x, y) → s = x ++ sep :: y := by
  intro s
  induction s with
  | nil => intro x y h; simp [splitAtCh] at h
  | cons c rest ih =>
    intro x y h
    by_cases hceq : (c == sep) = true
    · unfold splitAtCh at h
      rw [if_pos hceq] at h
      simp only [Option.some.injEq, Prod.mk.injEq] at h
      obtain ⟨rfl, rfl⟩ := h
      simp [beq_iff_eq.mp hceq]
    · unfold splitAtCh at h
      rw [if_neg hceq] at h
      rcases h2 : splitAtCh sep rest with _ | ⟨x2, y2⟩
      · rw [h2] at h
        simp at h
      · rw [h2] at h
        simp only [Option.some.injEq, Prod.mk.injEq] at h
        obtain ⟨rfl, rfl⟩ := h
        have h3 := ih h2
        simp [h3]

lemma cidrSearch_of_specForm {s : PyStr} (h : specCidrForm s = true) :
    cidrSearch s = true := by
  unfold specCidrForm at h
  split at h
  · exact absurd h (by simp)
  case _ a r1 heq1 =>
  split at h
  · exact absurd h (by simp)
  case _ b r2 heq2 =>
  split at h
  · exact absurd h (by simp)
  case _ c r3 heq3 =>
  split at h
  · exact absurd h (by simp)
  case _ d n heq4 =>
  simp only [Bool.and_eq_true] at h
  obtain ⟨⟨⟨⟨ha, hb⟩, hc⟩, hd⟩, hn⟩ := h
  have hs : s = a ++ '.' :: (b ++ '.' :: (c ++ '.' :: (d ++ '/' :: n))) := by
    rw [splitAtCh_eq heq1, splitAtCh_eq heq2, splitAtCh_eq heq3, splitAtCh_eq heq4]
  subst hs
  obtain ⟨hane, _⟩ := isOctetText_digits ha
  cases a with
  | nil => exact absurd rfl hane
  | cons a0 as =>
    have hparse := parseCidrAt_of_form ha hb hc hd hn
    unfold cidrSearch cidrSearchAux
    rw [show ((a0 :: as) ++ '.' :: (b ++ '.' :: (c ++ '.' :: (d ++ '/' :: n)))) =
      a0 :: (as ++ '.' :: (b ++ '.' :: (c ++ '.' :: (d ++ '/' :: n)))) from rfl] at hparse
    simp [hparse, tailBoundaryOk]

/-- Counterexample to claim C3 as stated: the regex is applied with
`re.search` and is unanchored, so `"1.2.3.4.5/16"` — not of the form
`a.b.c.d/n` — is accepted (the match starts at its second character). -/
theorem claim_C3_counterexample :
    vnet_app_ip_address_valid (pys "1.2.3.4.5/16") .VNET_CIDR_JSON = .ok true ∧
    specCidrForm (pys "1.2.3.4.5/16") = false := by
  exact ⟨rfl, rfl⟩

/-- Claim C3 (amended): every string that is entirely of the CIDR form
`a.b.c.d/n` (canonical decimal octets 0–255, prefix length 0–32) is accepted;
`10.0.0.0/16` is accepted and `10.0.0.0/33`, `256.0.0.0/16` and `10.0.0/16`
are rejected; but the match is an unanchored substring search with word
boundaries, so some strings not of that form — for example `1.2.3.4.5/16` —
are also accepted. -/
theorem claim_C3_cidr_validator :
    (∀ s msg, specCidrForm s = true → vnet_app_ip_address_valid s msg = .ok true) ∧
    vnet_app_ip_address_valid (pys "10.0.0.0/16") .VNET_CIDR_JSON = .ok true ∧
    vnet_app_ip_address_valid (pys "10.0.0.0/33") .VNET_CIDR_JSON =
      .error (.sub .VNET_CIDR_JSON) ∧
    vnet_app_ip_address_valid (pys "256.0.0.0/16") .VNET_CIDR_JSON =
      .error (.sub .VNET_CIDR_JSON) ∧
    vnet_app_ip_address_valid (pys "10.0.0/16") .VNET_CIDR_JSON =
      .error (.sub .VNET_CIDR_JSON) ∧
    vnet_app_ip_address_valid (pys "1.2.3.4.5/16") .VNET_CIDR_JSON = .ok true := by
  refine ⟨?_, rfl, rfl, rfl, rfl, rfl⟩
  intro s msg h
  unfold vnet_app_ip_address_valid
  rw [if_pos (cidrSearch_of_specForm h)]

/-- Witness for claim C3: the general acceptance clause applied at the
specification's valid vector. -/
theorem claim_C3_witness :
    vnet_app_ip_address_valid (pys "10.0.0.0/16") .VNET_CIDR_JSON = .ok true :=
  claim_C3_cidr_validator.1 (pys "10.0.0.0/16") .VNET_CIDR_JSON rfl

lemma firstDigitRun_none {name : PyStr} (h : ∀ c ∈ name, isDigitCh c = false) :
    firstDigitRun name = none := by
  induction name with
  | nil => rfl
  | cons c cs ih =>
    have hc : isDigitCh c = false := h c (by simp)
    simp only [firstDigitRun, hc, Bool.false_eq_true, if_false]
    exact ih (fun d hd => h d (by simp [hd]))

/-- Counterexample to claim C6 as stated: for the `infradev` choice and the
digitless name `Sample`, the derivation fails with an uncaught `IndexError`
(from `re.findall("\d+", name)[0]` on an empty list), not with any typed,
distinguishable validation error — no `MalformedApplicationName` error exists
in the script's error enumeration. -/
theorem claim_C6_counterexample :
    get_subscription_name (pys "1") (pys "Sample") = .error .indexError ∧
    isTypedSubscriptionError (get_subscription_name (pys "1") (pys "Sample")) = false := by
  exact ⟨rfl, rfl⟩

/-- Claim C6 (amended): when the subscription-name derivation is given the
`infradev` environment and an application name containing no digit, it fails
with an uncaught `IndexError` — an unclassified runtime failure, not a typed
validation error. -/
theorem claim_C6_no_digit_crash (name : PyStr)
    (h : ∀ c ∈ name, isDigitCh c = false) :
    get_subscription_name (pys "1") name = .error .indexError := by
  show (match firstDigitRun name with
        | none => Except.error PyError.indexError
        | some application_number =>
          Except.ok (pys "itaudev-lzdev-" ++
            pyLower (pyReplace name application_number []) ++
            '-' :: (if application_number.length = 1 then '0' :: '0' :: application_number
              else if application_number.length = 2 then '0' :: application_number
              else application_number))) =
      Except.error PyError.indexError
  rw [firstDigitRun_none h]

/-- Witness for claim C6: the theorem applied at the concrete name `Sample`. -/
theorem claim_C6_witness :
    get_subscription_name (pys "1") (pys "Sample") = .error PyError.indexError :=
  claim_C6_no_digit_crash (pys "Sample") (by decide)

/-- A silent-mode `mandatory_tags` input whose `CostCenter` value is blank
while its first entry (`ApplicationName`) is not. -/
def tagsBlankCostCenter : List (PyStr × PyStr) :=
  [(pys "ApplicationName", pys "Checkout"), (pys "CostCenter", pys ""),
   (pys "DataClassification", pys "Interna"), (pys "Environment", pys "dev"),
   (pys "OwnerName", pys "Alice"), (pys "Sigla", pys "AB1"), (pys "Squad", pys "Core")]

/-- A fully consistent silent-mode `mandatory_tags` input whose
`ApplicationName` differs from the identity name only in case. -/
def tagsAllGood : List (PyStr × PyStr) :=
  [(pys "ApplicationName", pys "checkout"), (pys "CostCenter", pys "123"),
   (pys "DataClassification", pys "Interna"), (pys "Environment", pys "dev"),
   (pys "OwnerName", pys "Alice"), (pys "Sigla", pys "AB1"), (pys "Squad", pys "Core")]

/-- A silent-mode `mandatory_tags` input whose `Environment` tag (`prod`)
contradicts the run's `infrastructure_environment` (`dev`). -/
def tagsWrongEnvironment : List (PyStr × PyStr) :=
  [(pys "ApplicationName", pys "checkout"), (pys "CostCenter", pys "123"),
   (pys "DataClassification", pys "Interna"), (pys "Environment", pys "prod"),
   (pys "OwnerName", pys "Alice"), (pys "Sigla", pys "AB1"), (pys "Squad", pys "Core")]

/-- Claim C1 is a code bug: the reconciler's `for` loop returns from its first
iteration, so only the first tag value is blank-checked.  Here `CostCenter` is
present and blank — `mandatory_tag_valid` itself rejects it — yet
reconciliation succeeds, because the first entry (`ApplicationName`) is
non-blank. -/
theorem claim_C1_blank_check_stops_at_first_tag :
    pyDictGet tagsBlankCostCenter (pys "CostCenter") = some (pys "") ∧
    mandatory_tag_valid (pys "") .MANDATORY_TAGS_EMPTY_JSON =
      .error (.sub .MANDATORY_TAGS_EMPTY_JSON) ∧
    exceptOk (get_mandatory_tags tagsBlankCostCenter (pys "dev") (pys "Checkout")) =
      true := by
  exact ⟨rfl, rfl, rfl⟩

/-- Claim C7: in data-driven mode the two cross-field invariants are enforced
with consistency errors distinct from the blank-value error: a tag
`ApplicationName` differing case-insensitively from the validated application
name raises the name-consistency error; with that check passed, an
`Environment` tag differing from the input's `infrastructure_environment`
raises the environment-consistency error; `ApplicationName = "checkout"`
against name `Checkout` succeeds, and `Environment = "prod"` against
infrastructure environment `dev` raises the consistency error. -/
theorem claim_C7_tag_consistency :
    (∀ (tags : List (PyStr × PyStr)) (ie name a : PyStr),
      pyDictGet tags (pys "ApplicationName") = some a →
      pyLower a ≠ pyLower name →
      get_mandatory_tags tags ie name =
        .error (.sub .MANDATORY_TAGS_APPLICATION_NAME_JSON)) ∧
    (∀ (tags : List (PyStr × PyStr)) (ie name a : PyStr),
      pyDictGet tags (pys "ApplicationName") = some a →
      pyLower a = pyLower name →
      pyDictGet tags (pys "Environment") ≠ some ie →
      get_mandatory_tags tags ie name =
        .error (.sub .MANDATORY_TAGS_ENVIRONMENT_JSON)) ∧
    ErrorMessages.MANDATORY_TAGS_APPLICATION_NAME_JSON ≠
      ErrorMessages.MANDATORY_TAGS_EMPTY_JSON ∧
    ErrorMessages.MANDATORY_TAGS_ENVIRONMENT_JSON ≠
      ErrorMessages.MANDATORY_TAGS_EMPTY_JSON ∧
    exceptOk (get_mandatory_tags tagsAllGood (pys "dev") (pys "Checkout")) = true ∧
    get_mandatory_tags tagsWrongEnvironment (pys "dev") (pys "Checkout") =
      .error (.sub .MANDATORY_TAGS_ENVIRONMENT_JSON) := by
  refine ⟨?_, ?_, by decide, by decide, rfl, rfl⟩
  · intro tags ie name a ha hne
    simp only [get_mandatory_tags, ha]
    rw [if_pos hne]
  · intro tags ie name a ha heq henv
    simp only [get_mandatory_tags, ha]
    rw [if_neg (fun hcon => hcon heq), if_pos henv]

lemma no_colon_after_colon_replace (skip : Nat) (s : PyStr) :
    ':' ∉ pyReplaceGo (pys ":") (pys " =") skip s := by
  induction s generalizing skip with
  | nil =>
    cases skip <;> simp [pyReplaceGo]
  | cons c rest ih =>
    cases skip with
    | succ k => exact ih k
    | zero =>
      by_cases hc : leadsWith (pys ":") (c :: rest) = true
      · simp only [pyReplaceGo, hc, if_pos]
        intro hmem
        rcases List.mem_append.mp hmem with h | h
        · simp [pys] at h
        · exact ih 0 h
      · simp only [pyReplaceGo, hc, Bool.false_eq_true, if_false]
        intro hmem
        rcases List.mem_cons.mp hmem with rfl | h
        · apply hc
          simp [pys, leadsWith]
        · exact ih 0 h

lemma mem_of_mem_comma_removal {x : Char} (skip : Nat) (s : PyStr)
    (h : x ∈ pyReplaceGo (pys ",") [] skip s) : x ∈ s := by
  induction s generalizing skip with
  | nil =>
    cases skip <;> simp [pyReplaceGo] at h
  | cons c rest ih =>
    cases skip with
    | succ k => exact List.mem_cons_of_mem c (ih k h)
    | zero =>
      by_cases hc : leadsWith (pys ",") (c :: rest) = true
      · simp only [pyReplaceGo, hc, if_pos, List.nil_append] at h
        exact List.mem_cons_of_mem c (ih _ h)
      · simp only [pyReplaceGo, hc, Bool.false_eq_true, if_false] at h
        rcases List.mem_cons.mp h with rfl | h2
        · exact List.mem_cons_self x rest
        · exact List.mem_cons_of_mem c (ih 0 h2)

lemma no_comma_after_comma_removal (skip : Nat) (s : PyStr) :
    ',' ∉ pyReplaceGo (pys ",") [] skip s := by
  induction s generalizing skip with
  | nil =>
    cases skip <;> simp [pyReplaceGo]
  | cons c rest ih =>
    cases skip with
    | succ k => exact ih k
    | zero =>
      by_cases hc : leadsWith (pys ",") (c :: rest) = true
      · simp only [pyReplaceGo, hc, if_pos, List.nil_append]
        exact ih _
      · simp only [pyReplaceGo, hc, Bool.false_eq_true, if_false]
        intro hmem
        rcases List.mem_cons.mp hmem with rfl | h
        · apply hc
          simp [pys, leadsWith]
        · exact ih 0 h

lemma no_comma_in_encoded (obj : List (PyStr × PyStr)) :
    ',' ∉ CustomJSONEncoder_encode obj :=
  no_comma_after_comma_removal 0 _

lemma no_colon_in_encoded (obj : List (PyStr × PyStr)) :
    ':' ∉ CustomJSONEncoder_encode obj := by
  intro h
  exact no_colon_after_colon_replace 0 _ (mem_of_mem_comma_removal 0 _ h)

/-- Counterexample to claim C9 as stated: the serializer keeps JSON's quotes
around keys, so the rendering of `{"CostCenter": "123"}` does not contain the
literal text `CostCenter = "123"` (a closing quote stands between the key and
the equals sign); the full output is shown for reference. -/
theorem claim_C9_counterexample :
    containsSub (pys "CostCenter = \"123\"")
      (CustomJSONEncoder_encode [(pys "CostCenter", pys "123")]) = false ∧
    CustomJSONEncoder_encode [(pys "CostCenter", pys "123")] =
      pys "\x7b\n    \"CostCenter\" = \"123\"\n\x7d" := by
  exact ⟨by decide, rfl⟩

/-- Claim C9 (amended): rendering `{"CostCenter": "123"}` through the custom
encoder yields a string containing `"CostCenter" = "123"` (the key keeps its
JSON quotes), and for every tag mapping the serialized output contains no
comma at all — in particular none between entries. -/
theorem claim_C9_serializer :
    containsSub (pys "\"CostCenter\" = \"123\"")
      (CustomJSONEncoder_encode [(pys "CostCenter", pys "123")]) = true ∧
    ∀ obj : List (PyStr × PyStr), ',' ∉ CustomJSONEncoder_encode obj := by
  exact ⟨by decide, no_comma_in_encoded⟩

/-- Claim C10: the custom encoder's replacements are global — for every tag
mapping the serialized output contains no colon and no comma at all, so the
replacements also rewrite tag values: `{"OwnerName": "a:b,c"}` renders with
value text `"a =bc"`. -/
theorem claim_C10_global_replacement :
    (∀ obj : List (PyStr × PyStr),
      ':' ∉ CustomJSONEncoder_encode obj ∧ ',' ∉ CustomJSONEncoder_encode obj) ∧
    CustomJSONEncoder_encode [(pys "OwnerName", pys "a:b,c")] =
      pys "\x7b\n    \"OwnerName\" = \"a =bc\"\n\x7d" := by
  exact ⟨fun obj => ⟨no_colon_in_encoded obj, no_comma_in_encoded obj⟩, rfl⟩
